import Mathlib

/-!
Verification of the corpus-expansion script `scripts/expand_corpus_llm.py`.

The script grows per-tier corpora by calling an external text provider.
Here the relevant functions are shallowly embedded:

* Python strings are Lean `String`s; `str.strip()` and
  `str.rstrip('.。!！?？')` are modelled by `pyStrip` and `rstripPunct`
  over the character list.
* The external provider (`chat_openai`, one HTTP call per loop
  iteration) is abstracted by an oracle `Nat → CallOutcome` giving, for
  each call index within an expansion run, either a raised exception
  (`requests` transport/HTTP failure → `providerError`; `json.loads`
  failure on the message content → `parseError`) or a parsed JSON
  object.  The parsed object is modelled by its association list of
  tier keys; a key may be absent, bound to `null` (`none`), or bound to
  a list of items each of which may be `null` (`none`) or a string.
* The `while` loop of `expand_level` is embedded as a step function
  `expandStep` (one loop iteration) iterated by `expandLoop` with
  explicit fuel; `outOfFuel` marks a run that did not finish within the
  given number of iterations.  Besides the result, the loop returns the
  trace of requested batch sizes, one entry per provider call actually
  issued, so that theorems can talk about how many items each request
  asked for.
* Prompt construction (`make_user_prompt`) and the `time.sleep` pacing
  have no effect on the accumulated items and are not modelled; the
  oracle already abstracts over whatever prompt the provider saw.
* `run` is embedded over in-memory corpora (association lists from tier
  name to item list, mirroring the loaded JSON dicts); `save_json` is
  modelled by recording the saved (language, corpus) pairs in order.
-/

namespace HearCoach

/-- Characters removed by the Python call `s.rstrip('.。!！?？')`:
the full-stop, exclamation and question mark in both English and
Chinese scripts. -/
def isTermPunct (c : Char) : Bool :=
  c == '.' || c == '。' || c == '!' || c == '！' || c == '?' || c == '？'

/-- Model of Python `s.rstrip('.。!！?？')`: remove the trailing run of
terminal-punctuation characters. -/
def rstripPunct (s : String) : String :=
  String.mk ((s.data.reverse.dropWhile isTermPunct).reverse)

/-- Model of Python `s.strip()`: remove leading and trailing
whitespace. -/
def pyStrip (s : String) : String :=
  String.mk (((s.data.dropWhile Char.isWhitespace).reverse.dropWhile
    Char.isWhitespace).reverse)

/-- Whether a string ends in one of the terminal punctuation
characters `.`, `。`, `!`, `！`, `?`, `？`. -/
def endsInTermPunct (s : String) : Bool :=
  match s.data.getLast? with
  | some c => isTermPunct c
  | none => false

/-- A raw item of the provider's tier array: JSON `null` is `none`
(Python `s or ''` turns it into the empty string). -/
abbrev RawItem := Option String

/-- The parsed JSON object returned by a successful provider call,
restricted to what the loop reads: the association of tier keys to
either `null` (`none`) or an array of raw items. -/
abbrev LevelsMap := List (String × Option (List RawItem))

/-- Model of `out.get(level, []) or []`: a missing key or a `null` (or
empty) value both yield the empty list. -/
def getLevelList (levels : LevelsMap) (level : String) : List RawItem :=
  match levels.lookup level with
  | none => []
  | some none => []
  | some (some l) => l

/-- Exceptions that can escape one provider call or the loop body:
`providerError` for a `requests` transport/HTTP failure or timeout,
`parseError` for a `json.loads` failure on the message content, and
`unsupportedProvider` for the `ValueError` raised on an unknown
provider identifier. -/
inductive ExpFailure where
  | providerError
  | parseError
  | unsupportedProvider
deriving Repr, DecidableEq

/-- Outcome of one provider call (`chat_openai`): either a raised
exception or the parsed JSON object. -/
inductive CallOutcome where
  | fail (e : ExpFailure)
  | ok (levels : LevelsMap)

/-- Model of the sanitization in the loop body: `s = (s or '').strip()`,
skip if empty, and for the easy tier `s = s.rstrip('.。!！?？')`.
Returns `none` exactly when the item is dropped by the
`if not s: continue` check; note that the easy-tier punctuation strip
happens after that emptiness check, so the returned string may be
empty. -/
def sanitize (level : String) (raw : RawItem) : Option String :=
  let s := pyStrip (raw.getD "")
  if s = "" then none
  else if level = "easy" then some (rstripPunct s) else some s

/-- One step of the per-item loop body: sanitize, then
`if s not in seen: seen.add(s); items.append(s)`.  The state is the
pair `(items, seen)`; the Python `set` is modelled by a list used only
through membership. -/
def acceptItem (level : String) (st : List String × List String)
    (raw : RawItem) : List String × List String :=
  match sanitize level raw with
  | none => st
  | some s => if s ∈ st.2 then st else (st.1 ++ [s], st.2 ++ [s])

/-- The `for s in new_list` loop of `expand_level`, folded over the raw
list returned by the provider. -/
def processNewList (level : String) (newList : List RawItem)
    (items seen : List String) : List String × List String :=
  newList.foldl (acceptItem level) (items, seen)

/-- Mutable state of one `expand_level` run: the accumulated `items`,
the `seen` set (a list used through membership), and the current
`per_call` value. -/
structure ExpState where
  items : List String
  seen : List String
  perCall : Nat
deriving Repr, DecidableEq

/-- Result of one iteration of the `while` loop of `expand_level`:
the loop exits returning `final` (`finished`), continues with a new
state (`next`), or an exception propagates (`failed`). -/
inductive StepResult where
  | finished (final : List String)
  | next (st : ExpState)
  | failed (e : ExpFailure)
deriving Repr, DecidableEq

/-- One iteration of the `while len(items) < target` loop of
`expand_level`, for call index `k`.  The second component is the list
of requested batch sizes of the provider calls issued during the step
(empty when no call was made, otherwise the singleton `[batch]`).
Mirrors the source line by line: compute
`batch = min(per_call, target - len(items))`; dispatch on the provider
(the `ValueError` for an unsupported provider fires before any network
call); read `new_list = out.get(level, []) or []`; run the per-item
sanitize/dedup loop; halve `per_call` (floor 1) when
`batch > 1 and len(new_list) == 0`; break when afterwards
`per_call == 1 and len(new_list) == 0`; on normal exit of the loop
return `items[:target]`. -/
def expandStep (oracle : Nat → CallOutcome) (provider level : String)
    (target : Nat) (st : ExpState) (k : Nat) : StepResult × List Nat :=
  if st.items.length < target then
    let batch := min st.perCall (target - st.items.length)
    if provider = "openai" then
      match oracle k with
      | .fail e => (.failed e, [batch])
      | .ok levels =>
        let newList := getLevelList levels level
        let ps := processNewList level newList st.items st.seen
        let perCall1 :=
          if 1 < batch ∧ newList.length = 0 then max 1 (st.perCall / 2)
          else st.perCall
        if perCall1 = 1 ∧ newList.length = 0 then
          (.finished (ps.1.take target), [batch])
        else
          (.next ⟨ps.1, ps.2, perCall1⟩, [batch])
    else (.failed .unsupportedProvider, [])
  else (.finished (st.items.take target), [])

/-- Overall result of an `expand_level` run: the returned list, a
propagated exception, or fuel exhaustion (the loop did not terminate
within the allotted number of iterations). -/
inductive ExpandResult where
  | ok (final : List String)
  | err (e : ExpFailure)
  | outOfFuel
deriving Repr, DecidableEq

/-- The `while` loop of `expand_level`, iterating `expandStep` with
explicit fuel; also returns the trace of requested batch sizes across
all provider calls of the run. -/
def expandLoop (oracle : Nat → CallOutcome) (provider level : String)
    (target : Nat) : Nat → ExpState → Nat → ExpandResult × List Nat
  | 0, _, _ => (.outOfFuel, [])
  | fuel + 1, st, k =>
    match expandStep oracle provider level target st k with
    | (.finished l, tr) => (.ok l, tr)
    | (.failed e, tr) => (.err e, tr)
    | (.next st1, tr) =>
      let r := expandLoop oracle provider level target fuel st1 (k + 1)
      (r.1, tr ++ r.2)

/-- Model of `expand_level`: `items = list(existing)`,
`seen = set(items)` (a list with the same membership), then the loop.
The unused `model`, `lang` and `api_key` parameters of the source only
feed prompt construction and the HTTP call, both absorbed by the
oracle. -/
def expand_level (oracle : Nat → CallOutcome) (provider level : String)
    (existing : List String) (target perCall fuel : Nat) :
    ExpandResult × List Nat :=
  expandLoop oracle provider level target fuel ⟨existing, existing, perCall⟩ 0

/-- A loaded corpus file: the association of tier names to item lists,
mirroring the JSON dict (`zh.get(level, [])` tolerates missing keys). -/
abbrev Corpus := List (String × List String)

/-- Model of `zh.get(level, [])`. -/
def corpusGet (c : Corpus) (level : String) : List String :=
  (c.lookup level).getD []

/-- Model of the dict assignment `zh[level] = ...`: replace the binding
if present, append it otherwise. -/
def corpusSet : Corpus → String → List String → Corpus
  | [], level, v => [(level, v)]
  | (k, w) :: rest, level, v =>
    if k = level then (level, v) :: rest else (k, w) :: corpusSet rest level v

/-- Model of `need(items, target) = max(0, target - len(items))`. -/
def need (items : List String) (target : Nat) : Nat :=
  max 0 (target - items.length)

/-- The fixed tier order `('easy','medium','hard')` of `run`. -/
def tierOrder : List String := ["easy", "medium", "hard"]

/-- Result of processing one language's tiers: the updated corpus, or a
propagated exception, or fuel exhaustion inside some tier's loop. -/
inductive LangResult where
  | ok (c : Corpus)
  | err (e : ExpFailure)
  | outOfFuel
deriving Repr, DecidableEq

/-- The per-language `for level in ('easy','medium','hard')` loop of
`run`: skip a tier whose deficit is zero, otherwise run `expand_level`
on it and store the result; an exception escaping `expand_level`
aborts the remaining tiers of this language (and, in the source,
propagates further). -/
def expandTiers (oracle : String → Nat → CallOutcome) (provider : String)
    (target perCall fuel : Nat) : List String → Corpus → LangResult
  | [], c => .ok c
  | level :: rest, c =>
    if need (corpusGet c level) target ≠ 0 then
      match expand_level (oracle level) provider level (corpusGet c level)
          target perCall fuel with
      | (.ok l, _) =>
        expandTiers oracle provider target perCall fuel rest (corpusSet c level l)
      | (.err e, _) => .err e
      | (.outOfFuel, _) => .outOfFuel
    else expandTiers oracle provider target perCall fuel rest c

/-- Overall outcome of `run`: the list of corpora saved by `save_json`,
in order, tagged by language; `exited` models `sys.exit(2)` on the
pre-flight checks; `err` models an uncaught exception crashing the
process, together with whatever had been saved before it. -/
inductive RunResult where
  | ok (saves : List (String × Corpus))
  | exited (code : Nat) (saves : List (String × Corpus))
  | err (e : ExpFailure) (saves : List (String × Corpus))
  | outOfFuel (saves : List (String × Corpus))
deriving Repr, DecidableEq

/-- The `'en' in langs` block of `run`, entered after the `zh` block
with the saves made so far. -/
def runEn (oracle : String → String → Nat → CallOutcome)
    (provider : String) (target perCall fuel : Nat) (langs : List String)
    (en : Corpus) (saves : List (String × Corpus)) : RunResult :=
  if "en" ∈ langs then
    match expandTiers (oracle "en") provider target perCall fuel tierOrder en with
    | .ok en1 => .ok (saves ++ [("en", en1)])
    | .err e => .err e saves
    | .outOfFuel => .outOfFuel saves
  else .ok saves

/-- Model of `run`: pre-flight provider and credential checks
(`sys.exit(2)` on failure), then the `zh` block, then the `en` block.
The corpora `zh` and `en` stand for the contents loaded by
`load_json`; `hasApiKey` models whether `OPENAI_API_KEY` is set.  Each
language's corpus is saved only after its whole tier loop completes,
and an exception escaping a tier loop crashes the process, skipping
every remaining save. -/
def run (oracle : String → String → Nat → CallOutcome) (provider : String)
    (hasApiKey : Bool) (target perCall fuel : Nat) (langs : List String)
    (zh en : Corpus) : RunResult :=
  if provider = "openai" then
    if hasApiKey then
      if "zh" ∈ langs then
        match expandTiers (oracle "zh") provider target perCall fuel tierOrder zh with
        | .ok zh1 =>
          runEn oracle provider target perCall fuel langs en [("zh", zh1)]
        | .err e => .err e []
        | .outOfFuel => .outOfFuel []
      else runEn oracle provider target perCall fuel langs en []
    else .exited 2 []
  else .exited 2 []

/-! ## General lemmas about the expansion loop -/

/-- One `acceptItem` step either leaves the state unchanged or appends
one sanitized, previously unseen string to both components. -/
theorem acceptItem_eq_or_append (level : String)
    (q : List String × List String) (raw : RawItem) :
    acceptItem level q raw = q ∨
    ∃ s, sanitize level raw = some s ∧ s ∉ q.2 ∧
      acceptItem level q raw = (q.1 ++ [s], q.2 ++ [s]) := by
  cases hs : sanitize level raw with
  | none => left; simp [acceptItem, hs]
  | some s =>
    by_cases hmem : s ∈ q.2
    · left; simp [acceptItem, hs, hmem]
    · right; exact ⟨s, rfl, hmem, by simp [acceptItem, hs, hmem]⟩

/-- Any property preserved by single `acceptItem` steps is preserved
by the whole `for s in new_list` loop. -/
theorem processNewList_preserve (level : String)
    (Q : List String × List String → Prop)
    (hstep : ∀ q raw, Q q → Q (acceptItem level q raw)) :
    ∀ (nl : List RawItem) (p : List String × List String),
      Q p → Q (processNewList level nl p.1 p.2) := by
  intro nl
  induction nl with
  | nil => intro p hp; exact hp
  | cons a t ih => intro p hp; exact ih (acceptItem level p a) (hstep p a hp)

/-- Shape of one loop iteration: it fails, or finishes with a
truncated item list obtained by processing some raw list, or continues
with a state whose items and seen set are obtained the same way. -/
theorem expandStep_shape (oracle : Nat → CallOutcome) (provider level : String)
    (target : Nat) (st : ExpState) (k : Nat) :
    (∃ e tr, expandStep oracle provider level target st k = (.failed e, tr)) ∨
    (∃ nl tr, expandStep oracle provider level target st k
        = (.finished ((processNewList level nl st.items st.seen).1.take target), tr)) ∨
    (∃ nl pc tr, expandStep oracle provider level target st k
        = (.next ⟨(processNewList level nl st.items st.seen).1,
            (processNewList level nl st.items st.seen).2, pc⟩, tr)) := by
  by_cases hlt : st.items.length < target
  · by_cases hp : provider = "openai"
    · cases ho : oracle k with
      | fail e =>
        left
        exact ⟨e, [min st.perCall (target - st.items.length)],
          by simp [expandStep, hlt, hp, ho]⟩
      | ok levels =>
        by_cases hbrk :
            (if 1 < min st.perCall (target - st.items.length) ∧
                (getLevelList levels level).length = 0
             then max 1 (st.perCall / 2) else st.perCall) = 1 ∧
            (getLevelList levels level).length = 0
        · right; left
          exact ⟨getLevelList levels level,
            [min st.perCall (target - st.items.length)],
            by simp only [expandStep, if_pos hlt, if_pos hp, ho, if_pos hbrk]⟩
        · right; right
          exact ⟨getLevelList levels level,
            (if 1 < min st.perCall (target - st.items.length) ∧
                (getLevelList levels level).length = 0
             then max 1 (st.perCall / 2) else st.perCall),
            [min st.perCall (target - st.items.length)],
            by simp only [expandStep, if_pos hlt, if_pos hp, ho, if_neg hbrk]⟩
    · left
      exact ⟨.unsupportedProvider, [], by simp [expandStep, hlt, hp]⟩
  · right; left
    exact ⟨[], [], by simp [expandStep, hlt, processNewList]⟩

/-- Every successful `expandLoop` run returns the `target`-truncation
of an item/seen pair reachable from the initial pair by `acceptItem`
steps; hence any property preserved by `acceptItem` holds of it. -/
theorem expandLoop_ok_exists (oracle : Nat → CallOutcome)
    (provider level : String) (target : Nat) :
    ∀ fuel (st : ExpState) k l tr,
      expandLoop oracle provider level target fuel st k = (.ok l, tr) →
      ∃ p : List String × List String,
        l = p.1.take target ∧
        ∀ Q : List String × List String → Prop,
          (∀ q raw, Q q → Q (acceptItem level q raw)) →
          Q (st.items, st.seen) → Q p := by
  intro fuel
  induction fuel with
  | zero =>
    intro st k l tr h
    exact absurd h (by simp [expandLoop])
  | succ n ih =>
    intro st k l tr h
    rcases expandStep_shape oracle provider level target st k with
      ⟨e, tr0, hs⟩ | ⟨nl, tr0, hs⟩ | ⟨nl, pc, tr0, hs⟩
    · rw [expandLoop, hs] at h
      exact absurd h (by simp)
    · rw [expandLoop, hs] at h
      simp only [Prod.mk.injEq, ExpandResult.ok.injEq] at h
      refine ⟨processNewList level nl st.items st.seen, h.1.symm, ?_⟩
      intro Q hstep hQ
      exact processNewList_preserve level Q hstep nl (st.items, st.seen) hQ
    · rw [expandLoop, hs] at h
      dsimp only at h
      rcases hr : expandLoop oracle provider level target n
          ⟨(processNewList level nl st.items st.seen).1,
            (processNewList level nl st.items st.seen).2, pc⟩ (k + 1) with ⟨res, tr1⟩
      rw [hr] at h
      simp only [Prod.mk.injEq] at h
      obtain ⟨hres, -⟩ := h
      obtain ⟨p, hp1, hp2⟩ := ih _ (k + 1) l tr1 (by rw [hr, hres])
      refine ⟨p, hp1, ?_⟩
      intro Q hstep hQ
      exact hp2 Q hstep
        (processNewList_preserve level Q hstep nl (st.items, st.seen) hQ)

/-! ## Lemmas about the sanitizer -/

/-- The head surviving a `dropWhile` does not satisfy the dropped
predicate. -/
theorem head?_dropWhile_false (p : Char → Bool) :
    ∀ (l : List Char) (c : Char),
      (l.dropWhile p).head? = some c → p c = false := by
  intro l
  induction l with
  | nil => intro c h; simp [List.dropWhile] at h
  | cons a t ih =>
    intro c h
    rw [List.dropWhile_cons] at h
    by_cases hpa : p a
    · rw [if_pos hpa] at h
      exact ih c h
    · rw [if_neg hpa] at h
      simp only [List.head?_cons, Option.some.injEq] at h
      rw [← h]
      exact Bool.eq_false_iff.2 hpa

/-- The result of `rstripPunct` never ends in a terminal punctuation
character. -/
theorem rstripPunct_no_trailing (x : String) :
    endsInTermPunct (rstripPunct x) = false := by
  unfold endsInTermPunct rstripPunct
  rcases hh : (x.data.reverse.dropWhile isTermPunct).head? with _ | c
  · rw [show (String.mk ((x.data.reverse.dropWhile isTermPunct).reverse)).data
        = (x.data.reverse.dropWhile isTermPunct).reverse from rfl,
      List.getLast?_reverse, hh]
  · rw [show (String.mk ((x.data.reverse.dropWhile isTermPunct).reverse)).data
        = (x.data.reverse.dropWhile isTermPunct).reverse from rfl,
      List.getLast?_reverse, hh]
    exact head?_dropWhile_false isTermPunct _ c hh

/-- An easy-tier item accepted by the sanitizer never ends in a
terminal punctuation character. -/
theorem sanitize_easy_no_trailing (raw : RawItem) (s : String)
    (h : sanitize "easy" raw = some s) : endsInTermPunct s = false := by
  unfold sanitize at h
  by_cases he : pyStrip (raw.getD "") = ""
  · simp [he] at h
  · simp only [he, if_neg, if_false, if_true, reduceIte, Option.some.injEq] at h
    rw [← h]
    exact rstripPunct_no_trailing _

/-- When every character of a string is terminal punctuation,
`rstripPunct` erases it completely. -/
theorem rstripPunct_eq_empty (x : String)
    (h : ∀ c ∈ x.data, isTermPunct c = true) : rstripPunct x = "" := by
  unfold rstripPunct
  have hnil : x.data.reverse.dropWhile isTermPunct = [] :=
    List.dropWhile_eq_nil_iff.2 (fun c hc => h c (List.mem_reverse.1 hc))
  rw [hnil]
  rfl

/-! ## Claim C1 -/

/-- Counterexample to C1: with `per_call = 1`, a provider that keeps
answering with the single item `"dup"` (already in `seen`, so zero
usable items on every call) does not make the loop stop: the break
condition tests `len(new_list) == 0` on the raw response, which is
non-empty here.  Ten calls of batch size 1 are issued and the fuel
runs out with the loop still going, refuting termination within one
further call. -/
theorem C1_cex :
    expand_level (fun _ => CallOutcome.ok [("easy", some [some "dup"])])
      "openai" "easy" ["dup"] 2 1 10
      = (.outOfFuel, [1, 1, 1, 1, 1, 1, 1, 1, 1, 1]) := by
  decide

/-- C1 (amended): if `batch_size == 1` and the provider returns an
empty raw list for the requested level (rather than merely zero usable
items), the loop terminates immediately after that call, issuing no
further provider calls, and returns the accumulated items as-is, even
if short of `target`. -/
theorem C1_amended (oracle : Nat → CallOutcome) (level : String)
    (target fuel k : Nat) (st : ExpState) (levels : LevelsMap)
    (hlen : st.items.length < target) (hpc : st.perCall = 1)
    (ho : oracle k = .ok levels)
    (hempty : getLevelList levels level = []) :
    expandLoop oracle "openai" level target (fuel + 1) st k
      = (.ok st.items, [1]) := by
  have hb : min st.perCall (target - st.items.length) = 1 := by
    rw [hpc]
    exact Nat.min_eq_left (by omega)
  have hstep : expandStep oracle "openai" level target st k
      = (.finished st.items, [1]) := by
    simp [expandStep, hlen, ho, hempty, hb, hpc, processNewList,
      List.take_of_length_le (le_of_lt hlen)]
    omega
  rw [expandLoop, hstep]

/-- Witness for the amended C1 at a concrete input: one item
accumulated, target 3, `per_call = 1`, provider answers with an empty
object. -/
theorem C1_amended_witness :
    expandLoop (fun _ => CallOutcome.ok []) "openai" "easy" 3 5
      ⟨["a"], ["a"], 1⟩ 0 = (.ok ["a"], [1]) :=
  C1_amended (fun _ => CallOutcome.ok []) "easy" 3 4 0 ⟨["a"], ["a"], 1⟩ []
    (by decide) rfl rfl rfl

/-! ## Claim C2 -/

/-- Counterexample to C2: a `ParseError` on the very first provider
call is not treated as zero usable items; it propagates and aborts
the expansion run (the result is the error, not a continued loop). -/
theorem C2_cex :
    expand_level (fun _ => CallOutcome.fail .parseError) "openai" "easy"
      [] 5 10 3 = (.err .parseError, [5]) := by
  decide

/-- C2 (amended): a provider response whose body is not parseable
(`ParseError`) propagates as an exception out of the loop and aborts
the expansion run, exactly like a `ProviderError`; it does not trigger
the adaptive-throttle path. -/
theorem C2_amended (oracle : Nat → CallOutcome) (level : String)
    (target fuel k : Nat) (st : ExpState)
    (hlen : st.items.length < target)
    (ho : oracle k = .fail .parseError) :
    expandLoop oracle "openai" level target (fuel + 1) st k
      = (.err .parseError, [min st.perCall (target - st.items.length)]) := by
  have hstep : expandStep oracle "openai" level target st k
      = (.failed .parseError, [min st.perCall (target - st.items.length)]) := by
    simp [expandStep, hlen, ho]
  rw [expandLoop, hstep]

/-- Witness for the amended C2 at a concrete input. -/
theorem C2_amended_witness :
    expandLoop (fun _ => CallOutcome.fail .parseError) "openai" "easy" 5 3
      ⟨[], [], 10⟩ 0 = (.err .parseError, [min 10 5]) :=
  C2_amended (fun _ => CallOutcome.fail .parseError) "easy" 5 2 0
    ⟨[], [], 10⟩ (by decide) rfl

/-! ## Claim C3 -/

/-- Counterexample to C3: duplicates already present in
`existing_items` survive, because `items = list(existing)` keeps them
while only `seen = set(items)` collapses; with
`existing = ["a","a"]` and `target = 2` the loop body never runs and
the duplicate pair is returned unchanged. -/
theorem C3_cex :
    expand_level (fun _ => CallOutcome.ok []) "openai" "easy" ["a", "a"] 2 1 1
      = (.ok ["a", "a"], []) ∧ ¬ (["a", "a"] : List String).Nodup := by
  decide

/-- C3 (amended): provided `existing_items` itself contains no
duplicates, the list returned by `expand_level` contains no duplicate
strings, for any sequence of provider responses; newly accepted items
are always distinct from everything already present. -/
theorem C3_amended (oracle : Nat → CallOutcome) (provider level : String)
    (existing : List String) (target perCall fuel : Nat)
    (l : List String) (tr : List Nat)
    (hnd : existing.Nodup)
    (h : expand_level oracle provider level existing target perCall fuel
      = (.ok l, tr)) :
    l.Nodup := by
  obtain ⟨p, hp1, hp2⟩ := expandLoop_ok_exists oracle provider level target fuel
    ⟨existing, existing, perCall⟩ 0 l tr h
  have hQ : p.1.Nodup ∧ ∀ s ∈ p.1, s ∈ p.2 := by
    refine hp2 (fun q => q.1.Nodup ∧ ∀ s ∈ q.1, s ∈ q.2) ?_
      ⟨hnd, fun s hs => hs⟩
    intro q raw hq
    rcases acceptItem_eq_or_append level q raw with heq | ⟨s, -, hmem, heq⟩
    · rw [heq]; exact hq
    · rw [heq]
      refine ⟨?_, ?_⟩
      · have hs1 : s ∉ q.1 := fun hin => hmem (hq.2 s hin)
        simp [List.nodup_append, hq.1, hs1]
      · intro x hx
        rcases List.mem_append.1 hx with hx | hx
        · exact List.mem_append.2 (Or.inl (hq.2 x hx))
        · exact List.mem_append.2 (Or.inr hx)
  rw [hp1]
  exact List.Nodup.sublist (List.take_sublist target p.1) hQ.1

/-- Witness for the amended C3 at a concrete input: a duplicate-free
`existing` plus one fresh provider item yields a duplicate-free
result. -/
theorem C3_amended_witness : (["a", "b"] : List String).Nodup :=
  C3_amended (fun _ => CallOutcome.ok [("easy", some [some "b"])]) "openai"
    "easy" ["a"] 2 2 3 ["a", "b"] [1] (by decide) (by decide)

/-! ## Claim C4 -/

/-- Counterexample to C4: when `existing_items` is already longer than
`target`, the final `items[:target]` truncation removes pre-existing
items: with `existing = ["a","b","c"]` and `target = 2` the item
`"c"` is dropped from the returned list. -/
theorem C4_cex :
    expand_level (fun _ => CallOutcome.ok []) "openai" "easy"
      ["a", "b", "c"] 2 5 3
      = (.ok ["a", "b"], []) ∧ "c" ∈ (["a", "b", "c"] : List String)
      ∧ "c" ∉ (["a", "b"] : List String) := by
  decide

/-- C4 (amended): provided `len(existing_items) <= target`, every
terminating run returns `existing_items` extended on the right: the
result is `existing_items ++ t` for some list `t` of new items, so no
pre-existing item is removed or reordered. -/
theorem C4_amended (oracle : Nat → CallOutcome) (provider level : String)
    (existing : List String) (target perCall fuel : Nat)
    (l : List String) (tr : List Nat)
    (hle : existing.length ≤ target)
    (h : expand_level oracle provider level existing target perCall fuel
      = (.ok l, tr)) :
    ∃ t, l = existing ++ t := by
  obtain ⟨p, hp1, hp2⟩ := expandLoop_ok_exists oracle provider level target fuel
    ⟨existing, existing, perCall⟩ 0 l tr h
  have hQ : ∃ t, p.1 = existing ++ t := by
    refine hp2 (fun q => ∃ t, q.1 = existing ++ t) ?_ ⟨[], by simp⟩
    intro q raw hq
    rcases acceptItem_eq_or_append level q raw with heq | ⟨s, -, -, heq⟩
    · rw [heq]; exact hq
    · obtain ⟨t, ht⟩ := hq
      refine ⟨t ++ [s], ?_⟩
      rw [heq]
      dsimp only
      rw [ht, List.append_assoc]
  obtain ⟨t, ht⟩ := hQ
  refine ⟨t.take (target - existing.length), ?_⟩
  rw [hp1, ht, List.take_append_eq_append_take, List.take_of_length_le hle]

/-- Witness for the amended C4 at a concrete input. -/
theorem C4_amended_witness :
    ∃ t, (["a", "b"] : List String) = ["a"] ++ t :=
  C4_amended (fun _ => CallOutcome.ok [("easy", some [some "b"])]) "openai"
    "easy" ["a"] 2 2 3 ["a", "b"] [1] (by decide) (by decide)

/-! ## Claim C5 -/

/-- C5: every terminating run returns at most `target` items, and from
any loop state that has reached or passed `target` (as happens when a
single response batch overshoots), the loop immediately returns the
accumulated items truncated to exactly `target`. -/
theorem C5_result_bounded (oracle : Nat → CallOutcome)
    (provider level : String) (target fuel : Nat) :
    (∀ (existing : List String) (perCall : Nat) (l : List String)
        (tr : List Nat),
        expand_level oracle provider level existing target perCall fuel
          = (.ok l, tr) →
        l.length ≤ target) ∧
    (∀ (st : ExpState) (k : Nat), target ≤ st.items.length →
        expandLoop oracle provider level target (fuel + 1) st k
          = (.ok (st.items.take target), []) ∧
        (st.items.take target).length = target) := by
  constructor
  · intro existing perCall l tr h
    obtain ⟨p, hp1, -⟩ := expandLoop_ok_exists oracle provider level target fuel
      ⟨existing, existing, perCall⟩ 0 l tr h
    rw [hp1, List.length_take]
    exact min_le_left _ _
  · intro st k hge
    have hstep : expandStep oracle provider level target st k
        = (.finished (st.items.take target), []) := by
      simp [expandStep, Nat.not_lt.2 hge]
    refine ⟨?_, ?_⟩
    · rw [expandLoop, hstep]
    · rw [List.length_take]
      exact Nat.min_eq_left hge

/-- Witness for C5 at concrete inputs: a completed run of target 1
returns one item, and a state holding three items with target 2 is
truncated to exactly two. -/
theorem C5_witness :
    (["x"] : List String).length ≤ 1 ∧
    ((["a", "b", "c"] : List String).take 2).length = 2 :=
  ⟨(C5_result_bounded (fun _ => CallOutcome.ok [("easy", some [some "x"])])
      "openai" "easy" 1 2).1 [] 1 ["x"] [1] (by decide),
   ((C5_result_bounded (fun _ => CallOutcome.ok []) "openai" "easy" 2 1).2
      ⟨["a", "b", "c"], ["a", "b", "c"], 1⟩ 0 (by decide)).2⟩

/-! ## Claim C6 -/

/-- Counterexample to C6: a request for 8 > 1 items answered with one
whitespace-only item yields zero usable new items (the state's items
and seen set stay empty), yet `per_call` is not halved: the halving
condition tests `len(new_list) == 0` on the raw response, which is
non-empty here, so the next state still has `per_call = 8` instead
of 4. -/
theorem C6_cex :
    expandStep (fun _ => CallOutcome.ok [("medium", some [some " "])])
      "openai" "medium" 10 ⟨[], [], 8⟩ 0
      = (.next ⟨[], [], 8⟩, [8]) := by
  decide

/-- C6 (amended): across one loop iteration `per_call` never
increases, stays at least 1 when it started at least 1, and is halved
(floor 1) exactly when the request asked for more than one item and
the provider returned an empty raw list for the tier (zero raw items,
not merely zero usable items). -/
theorem C6_amended (oracle : Nat → CallOutcome) (level : String) (target : Nat)
    (st st1 : ExpState) (k : Nat) (tr : List Nat)
    (h : expandStep oracle "openai" level target st k = (.next st1, tr)) :
    st1.perCall ≤ st.perCall ∧ (1 ≤ st.perCall → 1 ≤ st1.perCall) ∧
    ∀ levels, oracle k = .ok levels →
      st1.perCall =
        if 1 < min st.perCall (target - st.items.length) ∧
            (getLevelList levels level).length = 0
        then max 1 (st.perCall / 2) else st.perCall := by
  by_cases hlt : st.items.length < target
  case neg =>
    exfalso
    have hstep : expandStep oracle "openai" level target st k
        = (.finished (st.items.take target), []) := by
      simp [expandStep, hlt]
    rw [hstep] at h
    exact absurd h (by simp)
  case pos =>
    cases ho : oracle k with
    | fail e =>
      exfalso
      have hstep : expandStep oracle "openai" level target st k
          = (.failed e, [min st.perCall (target - st.items.length)]) := by
        simp [expandStep, hlt, ho]
      rw [hstep] at h
      exact absurd h (by simp)
    | ok levels0 =>
      by_cases hbrk :
          (if 1 < min st.perCall (target - st.items.length) ∧
              (getLevelList levels0 level).length = 0
           then max 1 (st.perCall / 2) else st.perCall) = 1 ∧
          (getLevelList levels0 level).length = 0
      · exfalso
        have hstep : expandStep oracle "openai" level target st k
            = (.finished ((processNewList level (getLevelList levels0 level)
                st.items st.seen).1.take target),
               [min st.perCall (target - st.items.length)]) := by
          simp only [expandStep, if_pos hlt, ho, if_pos hbrk]
          simp
        rw [hstep] at h
        exact absurd h (by simp)
      · have hstep : expandStep oracle "openai" level target st k
            = (.next ⟨(processNewList level (getLevelList levels0 level)
                  st.items st.seen).1,
                (processNewList level (getLevelList levels0 level)
                  st.items st.seen).2,
                if 1 < min st.perCall (target - st.items.length) ∧
                    (getLevelList levels0 level).length = 0
                then max 1 (st.perCall / 2) else st.perCall⟩,
               [min st.perCall (target - st.items.length)]) := by
          simp only [expandStep, if_pos hlt, ho, if_neg hbrk]
          simp
        rw [hstep] at h
        simp only [Prod.mk.injEq, StepResult.next.injEq] at h
        have hpc : st1.perCall =
            if 1 < min st.perCall (target - st.items.length) ∧
                (getLevelList levels0 level).length = 0
            then max 1 (st.perCall / 2) else st.perCall := by
          rw [← h.1]
        by_cases hcond : 1 < min st.perCall (target - st.items.length) ∧
            (getLevelList levels0 level).length = 0
        · have h1p : 1 < st.perCall :=
            lt_of_lt_of_le hcond.1 (min_le_left _ _)
          rw [if_pos hcond] at hpc
          refine ⟨?_, ?_, ?_⟩
          · rw [hpc]
            exact Nat.max_le.2 ⟨le_of_lt h1p, Nat.div_le_self _ _⟩
          · intro _
            rw [hpc]
            exact le_max_left _ _
          · intro levels hlev
            have hl : levels0 = levels := CallOutcome.ok.inj hlev
            subst hl
            rw [hpc, if_pos hcond]
        · rw [if_neg hcond] at hpc
          refine ⟨le_of_eq hpc, fun h1 => hpc ▸ h1, ?_⟩
          intro levels hlev
          have hl : levels0 = levels := CallOutcome.ok.inj hlev
          subst hl
          rw [hpc, if_neg hcond]

/-- Witness for the amended C6 at a concrete input: a request for 8
items answered by an empty object halves `per_call` from 8 to 4. -/
theorem C6_amended_witness :
    (4 : Nat) ≤ 8 ∧
    (4 : Nat) = if 1 < min 8 (10 - 0) ∧ (getLevelList [] "medium").length = 0
      then max 1 (8 / 2) else 8 := by
  have h := C6_amended (fun _ => CallOutcome.ok []) "medium" 10
    ⟨[], [], 8⟩ ⟨[], [], 4⟩ 0 [8] (by decide)
  exact ⟨h.1, h.2.2 [] rfl⟩

/-! ## Claim C7 -/

/-- C7: in an easy-tier run, every item of the returned list that was
not already among `existing_items` went through sanitization (trim,
drop-if-empty, strip trailing run of terminal punctuation) and
therefore does not end in `.`, `。`, `!`, `！`, `?` or `？`. -/
theorem C7_easy_no_trailing_punct (oracle : Nat → CallOutcome)
    (provider : String) (existing : List String)
    (target perCall fuel : Nat) (l : List String) (tr : List Nat)
    (h : expand_level oracle provider "easy" existing target perCall fuel
      = (.ok l, tr)) :
    ∀ s ∈ l, s ∉ existing → endsInTermPunct s = false := by
  obtain ⟨p, hp1, hp2⟩ := expandLoop_ok_exists oracle provider "easy" target
    fuel ⟨existing, existing, perCall⟩ 0 l tr h
  have hQ : ∀ s ∈ p.1, s ∈ existing ∨ endsInTermPunct s = false := by
    refine hp2 (fun q => ∀ s ∈ q.1, s ∈ existing ∨ endsInTermPunct s = false)
      ?_ (fun s hs => Or.inl hs)
    intro q raw hq
    rcases acceptItem_eq_or_append "easy" q raw with heq | ⟨s, hsan, -, heq⟩
    · rw [heq]; exact hq
    · rw [heq]
      dsimp only
      intro x hx
      rcases List.mem_append.1 hx with hx | hx
      · exact hq x hx
      · right
        rw [List.mem_singleton.1 hx]
        exact sanitize_easy_no_trailing raw s hsan
  intro s hs hnot
  rw [hp1] at hs
  rcases hQ s (List.take_subset target p.1 hs) with hin | hend
  · exact absurd hin hnot
  · exact hend

/-- Witness for C7 at a concrete input: the raw item `"hi."` is
accepted as `"hi"`, which ends in no terminal punctuation. -/
theorem C7_witness : endsInTermPunct "hi" = false :=
  C7_easy_no_trailing_punct
    (fun _ => CallOutcome.ok [("easy", some [some "hi."])]) "openai"
    [] 1 1 2 ["hi"] [1] (by decide) "hi" (by decide) (by decide)

/-! ## Claim C8 -/

/-- Counterexample to C8: `run` has no exception handler, so a
`ProviderError` raised while processing the first deficient `zh` tier
crashes the whole run: nothing is persisted (not even `zh`'s partial
progress) and the deficient `en` corpus is never processed or saved,
refuting that only the current language's remaining tier processing
is aborted. -/
theorem C8_cex :
    run (fun _ _ _ => CallOutcome.fail .providerError) "openai" true 1 1 5
      ["zh", "en"] [("easy", []), ("medium", []), ("hard", [])]
      [("easy", []), ("medium", []), ("hard", [])]
      = .err .providerError [] := by
  decide

/-- C8 (amended): a `ProviderError` propagates out of `expand_level`
and aborts the entire run, not just the current language; languages
whose corpora were already persisted before the failure remain
intact, because each language's file is saved right after its own
tier loop completes: if `zh` processing succeeds and `en` processing
fails, the `zh` save is retained and is the only save. -/
theorem C8_amended (oracle : String → String → Nat → CallOutcome)
    (target perCall fuel : Nat) (zh en zh1 : Corpus) (e : ExpFailure)
    (hzh : expandTiers (oracle "zh") "openai" target perCall fuel tierOrder zh
      = .ok zh1)
    (hen : expandTiers (oracle "en") "openai" target perCall fuel tierOrder en
      = .err e) :
    run oracle "openai" true target perCall fuel ["zh", "en"] zh en
      = .err e [("zh", zh1)] := by
  simp [run, runEn, hzh, hen]

/-- Witness for the amended C8 at a concrete input: `zh` is already at
target (saved untouched), the first `en` tier raises a
`ProviderError`, and only the `zh` save survives. -/
theorem C8_amended_witness :
    run (fun _ _ _ => CallOutcome.fail .providerError) "openai" true 1 1 5
      ["zh", "en"] [("easy", ["a"]), ("medium", ["b"]), ("hard", ["c"])]
      [("easy", []), ("medium", []), ("hard", [])]
      = .err .providerError
          [("zh", [("easy", ["a"]), ("medium", ["b"]), ("hard", ["c"])])] :=
  C8_amended (fun _ _ _ => CallOutcome.fail .providerError) 1 1 5
    [("easy", ["a"]), ("medium", ["b"]), ("hard", ["c"])]
    [("easy", []), ("medium", []), ("hard", [])]
    [("easy", ["a"]), ("medium", ["b"]), ("hard", ["c"])] .providerError
    (by decide) (by decide)

/-! ## Claim C9 -/

/-- C9: end-to-end scenario.  From `existing = ["苹果","香蕉"]` and
`target = 5` with `per_call = 100`, the first call requests
`min(100, 3) = 3` items; the response `{"easy": ["橙子","苹果","梨"]}`
adds `"橙子"` and `"梨"`, drops the duplicate `"苹果"`, giving
`items = ["苹果","香蕉","橙子","梨"]`; the second call then requests
exactly `min(100, 5 - 4) = 1` item (the trace of requested batch
sizes is `[3, 1]`). -/
theorem C9_scenario :
    expandStep (fun k => if k = 0
        then CallOutcome.ok [("easy", some [some "橙子", some "苹果", some "梨"])]
        else CallOutcome.ok [("easy", some [some "葡萄"])])
      "openai" "easy" 5 ⟨["苹果", "香蕉"], ["苹果", "香蕉"], 100⟩ 0
      = (.next ⟨["苹果", "香蕉", "橙子", "梨"],
          ["苹果", "香蕉", "橙子", "梨"], 100⟩, [3])
    ∧ expand_level (fun k => if k = 0
        then CallOutcome.ok [("easy", some [some "橙子", some "苹果", some "梨"])]
        else CallOutcome.ok [("easy", some [some "葡萄"])])
      "openai" "easy" ["苹果", "香蕉"] 5 100 10
      = (.ok ["苹果", "香蕉", "橙子", "梨", "葡萄"], [3, 1]) := by
  exact ⟨by decide, by decide⟩

/-! ## Claim C10 -/

/-- Counterexample to C10: the raw item `"。 !"` consists only of
whitespace and terminal punctuation, yet it is not sanitized to the
empty string: `strip()` leaves `"。 !"` (non-empty, so not dropped)
and `rstrip` removes only the trailing `"!"`, stopping at the inner
space, so the accepted value is `"。 "`. -/
theorem C10_cex :
    ("。 !".data.all (fun c => c.isWhitespace || isTermPunct c)) = true
    ∧ sanitize "easy" (some "。 !") = some "。 "
    ∧ ("。 " : String) ≠ "" := by
  decide

/-- C10 (amended): for the easy tier, a raw item that trims to a
non-empty run consisting solely of terminal punctuation (for example
`"。"`) is sanitized to the empty string — emptiness is checked before
punctuation stripping and never re-checked afterwards — and, if the
empty string is not already in the seen set, it is appended to both
the items and the seen set. -/
theorem C10_amended (r : String)
    (h1 : pyStrip r ≠ "")
    (h2 : ∀ c ∈ (pyStrip r).data, isTermPunct c = true) :
    sanitize "easy" (some r) = some "" ∧
    ∀ items seen : List String, "" ∉ seen →
      acceptItem "easy" (items, seen) (some r)
        = (items ++ [""], seen ++ [""]) := by
  have hs : sanitize "easy" (some r) = some "" := by
    simp only [sanitize, Option.getD_some, if_neg h1]
    rw [rstripPunct_eq_empty _ h2]
    simp
  refine ⟨hs, ?_⟩
  intro items seen hns
  simp only [acceptItem, hs]
  simp [hns]

/-- Witness for the amended C10 at the concrete input `"。"`. -/
theorem C10_amended_witness :
    sanitize "easy" (some "。") = some "" ∧
    acceptItem "easy" (["x"], ["x"]) (some "。") = (["x", ""], ["x", ""]) := by
  have h := C10_amended "。" (by decide) (by decide)
  exact ⟨h.1, h.2 ["x"] ["x"] (by decide)⟩

end HearCoach
